import Mathlib

set_option maxHeartbeats 1000000
set_option maxRecDepth 2048

/-!
Shallow embedding of the jibi Game-Boy-style emulator core: the standalone
cpu of src/unnamed/part_000 (namespace Standalone) and the jibi package cpu
and mmu of src/jibi/cpu.go (namespace Jibi).  Machine bytes and words are
Nat with explicit wrap-around, Go slices backing fixed-size memory blocks
are total maps (their indices are in range by the region bounds), fallible
code (Go panics, out-of-range slice indexing) returns Option.
-/

/-- An instruction buffer: the opcode (synthetic 9-bit space) and the operand
bytes, as the instruction type of both source files. -/
structure Instruction where
  o : Nat
  p : List Nat

namespace Standalone

/-- Flag bit mask for Z, as in part_000. -/
def flagZ : Nat := 0x80

/-- Flag bit mask for N, as in part_000. -/
def flagN : Nat := 0x40

/-- Flag bit mask for H, as in part_000. -/
def flagH : Nat := 0x20

/-- Flag bit mask for C, as in part_000. -/
def flagC : Nat := 0x10

/-- Modelled from the spec: the register8 helpers are not under src.  Per
section 4.A a write to the F register masks the low nibble to zero. -/
def fset (v : Nat) : Nat := v &&& 0xF0

/-- Modelled from the spec: the register8 helpers are not under src.  setFlag
sets an individual flag bit by mask (section 4.A). -/
def setFlag (m f : Nat) : Nat := fset (f ||| m)

/-- Modelled from the spec: the register8 helpers are not under src.  resetFlag
clears an individual flag bit by mask (section 4.A). -/
def resetFlag (m f : Nat) : Nat := fset (f &&& (m ^^^ 0xFF))

/-- Modelled from the spec: the register8 helpers are not under src.  getFlag
tests an individual flag bit by mask (section 4.A). -/
def getFlag (m f : Nat) : Bool := f &&& m == m

/-- sub from part_000 lines 179-193, acting on the F register value `f`.
The uint8 difference `a - b` is `(a + 256 - b) % 256` for `a b < 256`.
Returns the result together with the new F value. -/
def sub (f a b : Nat) : Nat × Nat :=
  let r := (a + 256 - b) % 256
  let f1 := fset 0
  let f2 := if r = 0 then setFlag flagZ f1 else f1
  let f3 := setFlag flagN f2
  let f4 := if a &&& 0x0F ≥ b &&& 0x0F then setFlag flagH f3 else f3
  let f5 := if a ≥ b then setFlag flagC f4 else f4
  (r, f5)

/-- add from part_000 lines 229-242, acting on the F register value `f`.
Returns the result together with the new F value. -/
def add (f a b : Nat) : Nat × Nat :=
  let r := (a + b) % 256
  let f1 := fset 0
  let f2 := if r = 0 then setFlag flagZ f1 else f1
  let f3 := if (a &&& 0x0F) + (b &&& 0x0F) > 0x0F then setFlag flagH f2 else f2
  let f4 := if a + b > 0xFF then setFlag flagC f3 else f3
  (r, f4)

/-- The standalone cpu state of part_000.  The field mem stands for the mc mmu
connection.  Modelled from the spec: the standalone mmu is not under src;
per sections 4.E and 3 a read returns the byte at the address and unloadBios
unmaps the boot overlay, recorded here as the biosLoaded flag. -/
structure Cpu0 where
  a : Nat
  b : Nat
  c : Nat
  d : Nat
  e : Nat
  f : Nat
  h : Nat
  l : Nat
  sp : Nat
  pc : Nat
  m : Nat
  t : Nat
  inst : Instruction
  mem : Nat → Nat
  biosLoaded : Bool

/-- Go int8 view of a byte: values 0x80..0xFF are negative. -/
def toInt8 (b : Nat) : Int := if b < 128 then (b : Int) else (b : Int) - 256

/-- Go int8 negation, which wraps at -128. -/
def negInt8 (n : Int) : Int := if n = -128 then -128 else -n

/-- Go conversion register16(x) applied to an int8 x: uint16 with sign
extension, so a negative x maps to x + 65536. -/
def toUInt16ofInt8 (n : Int) : Nat := (n % 65536).toNat

/-- jr from part_000 lines 288-294: for n < 0 the code adds register16(-n) to
PC (it does not subtract), otherwise it adds register16(n); PC is uint16. -/
def jr (n : Int) (s : Cpu0) : Cpu0 :=
  if n < 0 then { s with pc := (s.pc + toUInt16ofInt8 (negInt8 n)) % 65536 }
  else { s with pc := (s.pc + toUInt16ofInt8 n) % 65536 }

/-- jrNF from part_000 lines 282-286: relative jump taken when flag fl is
clear. -/
def jrNF (fl : Nat) (n : Int) (s : Cpu0) : Cpu0 :=
  if getFlag fl s.f = false then jr n s else s

/-- jp from part_000 lines 296-298. -/
def jp (addr : Nat) (s : Cpu0) : Cpu0 := { s with pc := addr }

/-- reset from part_000 lines 73-86: zero the 8-bit registers (the F write is
masked per section 4.A), SP := 0xFFFE, PC := 0, clear the cycle counters. -/
def reset (s : Cpu0) : Cpu0 :=
  { s with a := 0, b := 0, c := 0, d := 0, e := 0, f := fset 0, h := 0, l := 0,
           sp := 0xFFFE, pc := 0, m := 0, t := 0 }

/-- An opcode table entry of the standalone cpu: operand byte count b, base
T-cycle cost t, and the executor, which is nil (none) for unused entries. -/
structure CmdEntry0 where
  b : Nat
  t : Nat
  f : Option (Cpu0 → Option Cpu0)

/-- The command table as a Go map from synthetic opcodes to entries: a lookup
may miss (none), which in Go yields the zero value under comma-ok. -/
def Table0 : Type := Nat → Option CmdEntry0

/-- Read k operand bytes starting at pc, advancing PC with uint16 wrap. -/
def readParams (mem : Nat → Nat) (pc k : Nat) : List Nat × Nat :=
  match k with
  | 0 => ([], pc)
  | k+1 =>
    let rest := readParams mem ((pc + 1) % 65536) k
    (mem pc :: rest.1, rest.2)

/-- fetch from part_000 lines 322-336: read the opcode byte (a 0xCB prefix
forms a synthetic opcode 0xCB00+b), look the entry up (a map miss gives the
zero value, hence 0 operand bytes), and read the operand bytes into the
instruction buffer. -/
def fetch (tbl : Table0) (s : Cpu0) : Cpu0 :=
  let op0 := s.mem s.pc
  let pc1 := (s.pc + 1) % 65536
  let opPc : Nat × Nat :=
    if op0 = 0xCB then (0xCB00 + s.mem pc1, (pc1 + 1) % 65536) else (op0, pc1)
  let nb := match tbl opPc.1 with
    | some cmd => cmd.b
    | none => 0
  let ps := readParams s.mem opPc.2 nb
  { s with pc := ps.2, inst := { o := opPc.1, p := ps.1 } }

/-- execute from part_000 lines 338-347: unmap the boot overlay when PC is
0x0100, then run the table entry when the lookup hits; calling a nil executor
is a fatal Go panic (none).  t and m are uint8 counters. -/
def execute (tbl : Table0) (s : Cpu0) : Option Cpu0 :=
  let s1 := if s.pc = 0x100 then { s with biosLoaded := false } else s
  match tbl s1.inst.o with
  | none => some s1
  | some cmd =>
    match cmd.f with
    | none => none
    | some fn =>
      (fn s1).map fun s2 =>
        { s2 with t := (s2.t + cmd.t) % 256, m := (s2.m + cmd.t * 4) % 256 }

/-- step from part_000 lines 349-357: clear the cycle counters, fetch,
execute. -/
def step (tbl : Table0) (s : Cpu0) : Option Cpu0 :=
  execute tbl (fetch tbl { s with m := 0, t := 0 })

/-- Modelled from the spec: the command table source file is not under src.
The entry for opcode 0x20, JR NZ,e8 (section 4.C): one operand byte, executed
by jrNF with the Z flag mask and the signed operand byte. -/
def tblJR : Table0 := fun op =>
  if op = 0x20 then
    some { b := 1, t := 8,
           f := some fun s => some (jrNF flagZ (toInt8 (s.inst.p.headD 0)) s) }
  else none

/-- Concrete start state for the JR NZ,e8 scenario of the spec: PC = 0,
F = 0 (Z clear), memory bytes 0x20 at 0x0000 and 0xFB at 0x0001. -/
def jrStart : Cpu0 :=
  { a := 0, b := 0, c := 0, d := 0, e := 0, f := 0, h := 0, l := 0,
    sp := 0, pc := 0, m := 0, t := 0, inst := { o := 0, p := [] },
    mem := fun ad => if ad = 0 then 0x20 else if ad = 1 then 0xFB else 0,
    biosLoaded := true }

end Standalone

namespace Jibi

/-- Address constant AddrRom from cpu.go. -/
def AddrRom : Nat := 0x0000

/-- Address constant AddrVRam from cpu.go. -/
def AddrVRam : Nat := 0x8000

/-- Address constant AddrERam from cpu.go. -/
def AddrERam : Nat := 0xA000

/-- Address constant AddrRam from cpu.go. -/
def AddrRam : Nat := 0xC000

/-- Address constant AddrOam from cpu.go. -/
def AddrOam : Nat := 0xFE00

/-- Address constant AddrOamEnd from cpu.go. -/
def AddrOamEnd : Nat := 0xFEA0

/-- Address constant AddrP1 from cpu.go. -/
def AddrP1 : Nat := 0xFF00

/-- Address constant AddrIF from cpu.go. -/
def AddrIF : Nat := 0xFF0F

/-- Address constant AddrGpuRegs from cpu.go. -/
def AddrGpuRegs : Nat := 0xFF40

/-- Address constant AddrGpuRegsEnd from cpu.go. -/
def AddrGpuRegsEnd : Nat := 0xFF4C

/-- Address constant AddrZero from cpu.go. -/
def AddrZero : Nat := 0xFF80

/-- Address constant AddrIE from cpu.go. -/
def AddrIE : Nat := 0xFFFF

/-- Address block bit abNil (the iota zero value). -/
def abNil : Nat := 0

/-- Address block bit abRom = 1<<1. -/
def abRom : Nat := 2

/-- Address block bit abVRam = 1<<2. -/
def abVRam : Nat := 4

/-- Address block bit abERam = 1<<3. -/
def abERam : Nat := 8

/-- Address block bit abRam = 1<<4. -/
def abRam : Nat := 16

/-- Address block bit abOam = 1<<5. -/
def abOam : Nat := 32

/-- Address block bit abP1 = 1<<6. -/
def abP1 : Nat := 64

/-- Address block bit abIF = 1<<7. -/
def abIF : Nat := 128

/-- Address block bit abGpuRegs = 1<<8. -/
def abGpuRegs : Nat := 256

/-- Address block bit abZero = 1<<9. -/
def abZero : Nat := 512

/-- Address block bit abIE = 1<<10, also abLast. -/
def abIE : Nat := 1024

/-- getAddressInfo from cpu.go lines 614-676, reduced to its validity flag
(the descriptive string plays no role in control flow). -/
def getAddressInfo (a : Nat) : Bool :=
  if 0x9C00 ≤ a ∧ a ≤ 0x9FFF then false
  else if 0xFEA0 ≤ a ∧ a ≤ 0xFEFF then true
  else if a = 0xFF00 then false
  else if a = 0xFF01 then true
  else if a = 0xFF02 then true
  else if a = 0xFF03 then true
  else if a = 0xFF04 then true
  else if a = 0xFF05 then true
  else if a = 0xFF06 then true
  else if a = 0xFF07 then true
  else if 0xFF08 ≤ a ∧ a ≤ 0xFF0E then true
  else if a = 0xFF10 then true
  else if a = 0xFF11 then true
  else if a = 0xFF12 then true
  else if a = 0xFF13 then true
  else if a = 0xFF14 then true
  else if a = 0xFF17 then true
  else if a = 0xFF19 then true
  else if a = 0xFF1A then true
  else if a = 0xFF20 then true
  else if a = 0xFF21 then true
  else if a = 0xFF23 then true
  else if a = 0xFF24 then true
  else if a = 0xFF25 then true
  else if a = 0xFF26 then true
  else if 0xFF30 ≤ a ∧ a ≤ 0xFF3F then true
  else if a = 0xFF47 then false
  else if 0xFF4D ≤ a ∧ a ≤ 0xFF7F then true
  else if a = 0xFFFF then false
  else false

/-- selectAddressBlock from cpu.go lines 447-479: the partition of the address
space into blocks with their base addresses; unmapped addresses with an
invalid getAddressInfo entry are a fatal panic (none). -/
def selectAddressBlock (a : Nat) : Option (Nat × Nat) :=
  if a < AddrVRam then some (abRom, 0)
  else if a < AddrERam then some (abVRam, AddrVRam)
  else if a < AddrRam then some (abERam, AddrERam)
  else if a < AddrOam then some (abRam, AddrRam)
  else if a < AddrOamEnd then some (abOam, AddrOam)
  else if a = AddrP1 then some (abP1, AddrP1)
  else if a = AddrIF then some (abIF, AddrIF)
  else if AddrGpuRegs ≤ a ∧ a < AddrGpuRegsEnd then some (abGpuRegs, AddrGpuRegs)
  else if AddrZero ≤ a ∧ a < AddrIE then some (abZero, AddrZero)
  else if a = AddrIE then some (abIE, AddrIE)
  else if getAddressInfo a then some (abNil, 0)
  else none

/-- A memory mapped io port (mmio in cpu.go): the owner-visible value, the
value observable to non-owners, the staged non-owner write, and the queued
flag.  The per-port mutex serializes accesses and is not itself state. -/
structure Mmio where
  value : Nat
  read : Nat
  write : Nat
  queued : Bool

/-- mmio.readByte from cpu.go lines 698-705. -/
def mmioReadByte (mm : Mmio) (owner : Bool) : Nat :=
  if owner then mm.value else mm.read

/-- mmio.writeByte from cpu.go lines 707-725: an owner write refreshes value
and read, and write too unless a non-owner write is queued; a non-owner write
queues (the latest wins). -/
def mmioWriteByte (mm : Mmio) (bv : Nat) (owner : Bool) : Mmio :=
  if owner then
    { mm with value := bv, read := bv,
              write := if mm.queued then mm.write else bv }
  else
    { mm with queued := true, write := bv }

/-- mmio.readIoByte from cpu.go lines 727-736: the owner settles the queued
write; a non-owner call is a fatal panic (none). -/
def mmioReadIoByte (mm : Mmio) (owner : Bool) : Option ((Nat × Bool) × Mmio) :=
  if owner then some ((mm.write, mm.queued), { mm with queued := false })
  else none

/-- The Mmu state from cpu.go: rom is the cartridge slice (indexing past its
end is a fatal panic), the fixed-size blocks vram (0x2000), ram (0x2000), oam
(0xA0), gpuregs (12) and zero (0x100) are total maps since every computed
index is within the Go slice bounds, ie is the interrupt enable byte, and
kpPresent records whether SetKeypad has been called (m.kp is a nil pointer
otherwise).  The per-region mutexes are not state. -/
structure Mmu where
  rom : List Nat
  vram : Nat → Nat
  ram : Nat → Nat
  oam : Nat → Nat
  gpuregs : Nat → Nat
  zero : Nat → Nat
  ie : Nat
  ioIF : Mmio
  ioP1 : Mmio
  kpPresent : Bool

/-- NewMmu from cpu.go lines 376-397: zeroed blocks and fresh mmio ports. -/
def NewMmu (rom : List Nat) : Mmu :=
  { rom := rom, vram := fun _ => 0, ram := fun _ => 0, oam := fun _ => 0,
    gpuregs := fun _ => 0, zero := fun _ => 0, ie := 0,
    ioIF := { value := 0, read := 0, write := 0, queued := false },
    ioP1 := { value := 0, read := 0, write := 0, queued := false },
    kpPresent := false }

/-- Pointwise update of a memory block. -/
def upd (st : Nat → Nat) (i v : Nat) : Nat → Nat :=
  fun j => if j = i then v else st j

/-- LockAddr from cpu.go lines 483-491: a no-op on the key set when the
region bit is already held, otherwise the bit is added (the mutex blocking
is invisible to the key set). -/
def LockAddr (a ak : Nat) : Option Nat :=
  (selectAddressBlock a).map fun bs =>
    if ak &&& bs.1 = bs.1 then ak else ak ||| bs.1

/-- UnlockAddr from cpu.go lines 493-501: a no-op on the key set when the
region bit is not held, otherwise the bit is cleared via blk ^ 0xFFFF. -/
def UnlockAddr (a ak : Nat) : Option Nat :=
  (selectAddressBlock a).map fun bs =>
    if ak &&& bs.1 = bs.1 then ak &&& (bs.1 ^^^ 0xFFFF) else ak

/-- ReadByteAt from cpu.go lines 503-547.  The Go fall-through is linearized:
a matched block whose owner check fails reaches the unauthorized panic at the
bottom (none); an abNil address (always owner) reads 0 when getAddressInfo
knows it, else panics. -/
def ReadByteAt (mm : Mmu) (a ak : Nat) : Option Nat :=
  match selectAddressBlock a with
  | none => none
  | some (blk, start) =>
    if blk = abRom ∧ ak &&& blk = blk then mm.rom.get? (a - start)
    else if blk = abVRam ∧ ak &&& blk = blk then some (mm.vram (a - start))
    else if blk = abRam ∧ ak &&& blk = blk then
      some (mm.ram ((a - start) &&& 0x1FFF))
    else if blk = abOam ∧ ak &&& blk = blk then some (mm.oam (a - start))
    else if blk = abP1 then some (mmioReadByte mm.ioP1 (ak &&& blk = blk))
    else if blk = abIF then some (mmioReadByte mm.ioIF (ak &&& blk = blk))
    else if blk = abGpuRegs ∧ ak &&& blk = blk then
      some (mm.gpuregs (a - start))
    else if blk = abZero ∧ ak &&& blk = blk then some (mm.zero (a - start))
    else if blk = abIE ∧ ak &&& blk = blk then some mm.ie
    else if ¬ (ak &&& blk = blk) then none
    else if ¬ getAddressInfo a then none
    else some 0

/-- WriteByteAt from cpu.go lines 549-600, linearized like ReadByteAt.  A ROM
write returns at once with nothing changed.  A non-owner P1 write queues and
then notifies the keypad, a nil keypad pointer being a fatal panic (none). -/
def WriteByteAt (mm : Mmu) (a bv ak : Nat) : Option Mmu :=
  match selectAddressBlock a with
  | none => none
  | some (blk, start) =>
    if blk = abRom then some mm
    else if blk = abVRam ∧ ak &&& blk = blk then
      some { mm with vram := upd mm.vram (a - start) bv }
    else if blk = abRam ∧ ak &&& blk = blk then
      some { mm with ram := upd mm.ram ((a - start) &&& 0x1FFF) bv }
    else if blk = abOam ∧ ak &&& blk = blk then
      some { mm with oam := upd mm.oam (a - start) bv }
    else if blk = abP1 then
      if ak &&& blk = blk then
        some { mm with ioP1 := mmioWriteByte mm.ioP1 bv true }
      else if mm.kpPresent then
        some { mm with ioP1 := mmioWriteByte mm.ioP1 bv false }
      else none
    else if blk = abIF then
      some { mm with ioIF := mmioWriteByte mm.ioIF bv (ak &&& blk = blk) }
    else if blk = abGpuRegs ∧ ak &&& blk = blk then
      some { mm with gpuregs := upd mm.gpuregs (a - start) bv }
    else if blk = abZero ∧ ak &&& blk = blk then
      some { mm with zero := upd mm.zero (a - start) bv }
    else if blk = abIE ∧ ak &&& blk = blk then some { mm with ie := bv }
    else if ¬ (ak &&& blk = blk) then none
    else if ¬ getAddressInfo a then none
    else some mm

/-- ReadIoByte from cpu.go lines 602-611: the owner-side settling of a
queued mmio write; any address other than P1 or IF is a fatal panic. -/
def ReadIoByte (mm : Mmu) (a ak : Nat) : Option ((Nat × Bool) × Mmu) :=
  match selectAddressBlock a with
  | none => none
  | some (blk, _) =>
    if blk = abP1 then
      (mmioReadIoByte mm.ioP1 (ak &&& blk = blk)).map fun r =>
        (r.1, { mm with ioP1 := r.2 })
    else if blk = abIF then
      (mmioReadIoByte mm.ioIF (ak &&& blk = blk)).map fun r =>
        (r.1, { mm with ioIF := r.2 })
    else none

/-- The jibi Cpu state from cpu.go.  The commander, clock subscribers and
notification channels are driver plumbing and not modelled; registers are the
spec-modelled register8 values (section 4.A). -/
structure Cpu where
  a : Nat
  b : Nat
  c : Nat
  d : Nat
  e : Nat
  f : Nat
  h : Nat
  l : Nat
  sp : Nat
  pc : Nat
  m : Nat
  t : Nat
  inst : Instruction
  ime : Nat
  mmu : Mmu
  mmuKeys : Nat
  bios : List Nat
  biosFinished : Bool

/-- cpu.lockAddr from cpu.go lines 150-152. -/
def lockAddrC (a : Nat) (s : Cpu) : Option Cpu :=
  (LockAddr a s.mmuKeys).map fun k => { s with mmuKeys := k }

/-- cpu.unlockAddr from cpu.go lines 154-156. -/
def unlockAddrC (a : Nat) (s : Cpu) : Option Cpu :=
  (UnlockAddr a s.mmuKeys).map fun k => { s with mmuKeys := k }

/-- cpu.readByte from cpu.go lines 158-171: below 0x100 with an unfinished
boot rom the bios overlay is read; VRAM and OAM range accesses take and
release the region key around the read. -/
def readByte (s : Cpu) (a : Nat) : Option (Nat × Cpu) :=
  if s.biosFinished = false ∧ a ≤ 0xFF then
    (s.bios.get? a).map fun v => (v, s)
  else if AddrVRam ≤ a ∧ a ≤ AddrRam then do
    let s1 ← lockAddrC AddrVRam s
    let v ← ReadByteAt s1.mmu a s1.mmuKeys
    let s2 ← unlockAddrC AddrVRam s1
    pure (v, s2)
  else if AddrOam ≤ a ∧ a ≤ AddrOamEnd then do
    let s1 ← lockAddrC AddrOam s
    let v ← ReadByteAt s1.mmu a s1.mmuKeys
    let s2 ← unlockAddrC AddrOam s1
    pure (v, s2)
  else
    (ReadByteAt s.mmu a s.mmuKeys).map fun v => (v, s)

/-- cpu.writeByte from cpu.go lines 173-183, with the same VRAM and OAM key
discipline as readByte. -/
def writeByte (s : Cpu) (a bv : Nat) : Option Cpu :=
  if AddrVRam ≤ a ∧ a ≤ AddrRam then do
    let s1 ← lockAddrC AddrVRam s
    let mm ← WriteByteAt s1.mmu a bv s1.mmuKeys
    unlockAddrC AddrVRam { s1 with mmu := mm }
  else if AddrOam ≤ a ∧ a ≤ AddrOamEnd then do
    let s1 ← lockAddrC AddrOam s
    let mm ← WriteByteAt s1.mmu a bv s1.mmuKeys
    unlockAddrC AddrOam { s1 with mmu := mm }
  else
    (WriteByteAt s.mmu a bv s.mmuKeys).map fun mm => { s with mmu := mm }

/-- cpu.writeWord from cpu.go lines 191-194: low byte at addr, high byte at
addr+1 (the Low and High helpers of Worder are the evident byte halves). -/
def writeWord (s : Cpu) (a w : Nat) : Option Cpu := do
  let s1 ← writeByte s a (w % 256)
  writeByte s1 ((a + 1) % 65536) (w / 256 % 256)

/-- Modelled from the spec: cpu.push is not under src; per section 4.G it
pushes the word onto the stack and the standalone pushWord (part_000 lines
317-320) writes the word at SP-2 and then decrements SP by 2 (uint16). -/
def push (s : Cpu) (w : Nat) : Option Cpu :=
  (writeWord s ((s.sp + 65534) % 65536) w).map fun s1 =>
    { s1 with sp := (s.sp + 65534) % 65536 }

/-- Modelled from the spec: the jibi cpu.jp is not under src; as in part_000
lines 296-298 it sets PC to the address. -/
def jpC (addr : Nat) (s : Cpu) : Cpu := { s with pc := addr }

/-- Modelled from the spec: interrupt mask constant, VBlank 0x01. -/
def InterruptVblank : Nat := 0x01

/-- Modelled from the spec: interrupt mask constant, LCDC (LCD-STAT) 0x02. -/
def InterruptLCDC : Nat := 0x02

/-- Modelled from the spec: interrupt mask constant, Timer 0x04. -/
def InterruptTimer : Nat := 0x04

/-- Modelled from the spec: interrupt mask constant, Serial 0x08. -/
def InterruptSerial : Nat := 0x08

/-- Modelled from the spec: interrupt mask constant, Keypad 0x10. -/
def InterruptKeypad : Nat := 0x10

/-- Modelled from the spec: Interrupt.Address is not under src; the vectors
are VBlank 0x40, LCDC 0x48, Timer 0x50, Serial 0x58, Keypad 0x60. -/
def interruptAddress (i : Nat) : Nat :=
  if i = InterruptVblank then 0x40
  else if i = InterruptLCDC then 0x48
  else if i = InterruptTimer then 0x50
  else if i = InterruptSerial then 0x58
  else if i = InterruptKeypad then 0x60
  else 0

/-- getInterrupt from cpu.go lines 248-261: the highest priority (lowest
numbered) interrupt bit enabled in ie and pending in iflag, else 0. -/
def getInterrupt (ie iflag : Nat) : Nat :=
  if InterruptVblank &&& ie &&& iflag ≠ 0 then InterruptVblank
  else if InterruptLCDC &&& ie &&& iflag ≠ 0 then InterruptLCDC
  else if InterruptTimer &&& ie &&& iflag ≠ 0 then InterruptTimer
  else if InterruptSerial &&& ie &&& iflag ≠ 0 then InterruptSerial
  else if InterruptKeypad &&& ie &&& iflag ≠ 0 then InterruptKeypad
  else 0

/-- resetInterrupt from cpu.go lines 242-245: write iflag with the bit of i
cleared back to IF. -/
def resetInterrupt (i iflag : Nat) (s : Cpu) : Option Cpu :=
  writeByte s AddrIF (iflag &&& (i ^^^ 0xFF))

/-- interrupt from cpu.go lines 274-286: with IME set, read IE and IF, pick
the pending interrupt; if one fires clear IME, push PC, jump to its vector
and clear its IF bit. -/
def interrupt (s : Cpu) : Option Cpu :=
  if s.ime = 1 then do
    let rIE ← readByte s AddrIE
    let rIF ← readByte rIE.2 AddrIF
    let i := getInterrupt rIE.1 rIF.1
    if 0 < i then do
      let s3 : Cpu := { rIF.2 with ime := 0 }
      let s4 ← push s3 s3.pc
      resetInterrupt i rIF.1 (jpC (interruptAddress i) s4)
    else pure rIF.2
  else pure s

/-- io from cpu.go lines 263-272: settle the IF port (the queued flag of the
two-valued ReadIoByte result is dropped, as the source uses the value only),
mask with 0 when IME is clear or with IE otherwise, and write back to IF. -/
def ioPhase (s : Cpu) : Option Cpu := do
  let r ← ReadIoByte s.mmu AddrIF s.mmuKeys
  let s1 : Cpu := { s with mmu := r.2 }
  if s1.ime = 0 then writeByte s1 AddrIF 0
  else do
    let rIE ← readByte s1 AddrIE
    writeByte rIE.2 AddrIF (r.1.1 &&& rIE.1)

/-- An opcode table entry of the jibi cpu (the command struct): operand byte
count b, base T-cycle cost t, and the executor, nil (none) for unused
entries. -/
structure CmdEntry where
  b : Nat
  t : Nat
  f : Option (Cpu → Option Cpu)

/-- The jibi command table as a Go map from synthetic opcodes to entries. -/
def Table : Type := Nat → Option CmdEntry

/-- Read k operand bytes through cpu.readByte, advancing PC (uint16). -/
def fetchParams (k : Nat) (s : Cpu) (acc : List Nat) :
    Option (List Nat × Cpu) :=
  match k with
  | 0 => some (acc, s)
  | k+1 => do
    let r ← readByte s s.pc
    fetchParams k { r.2 with pc := (r.2.pc + 1) % 65536 } (acc ++ [r.1])

/-- The opcode-reading start of fetch (cpu.go lines 204-209): read the
opcode byte, advancing PC; a 0xCB prefix reads one more byte and forms the
synthetic opcode 0xCB00+b. -/
def fetchOpcode (s : Cpu) : Option (Nat × Cpu) := do
  let r0 ← readByte s s.pc
  let sB : Cpu := { r0.2 with pc := (r0.2.pc + 1) % 65536 }
  if r0.1 = 0xCB then do
    let r1 ← readByte sB sB.pc
    pure (0xCB00 + r1.1, { r1.2 with pc := (r1.2.pc + 1) % 65536 })
  else pure (r0.1, sB)

/-- fetch from cpu.go lines 203-217: read the opcode (via fetchOpcode), look
the entry up (a Go map miss yields the zero value command, hence 0 operand
bytes), then read the operand bytes into the instruction buffer. -/
def fetch (tbl : Table) (s : Cpu) : Option Cpu := do
  let opS ← fetchOpcode s
  let nb := match tbl opS.1 with
    | some cmd => cmd.b
    | none => 0
  let ps ← fetchParams nb opS.2 []
  pure { ps.2 with inst := { o := opS.1, p := ps.1 } }

/-- execute from cpu.go lines 219-225: a map miss (comma-ok false) silently
does nothing; a present entry runs its executor, calling a nil executor
being a fatal Go panic (none), and accumulates t and m (uint8 counters). -/
def execute (tbl : Table) (s : Cpu) : Option Cpu :=
  match tbl s.inst.o with
  | none => some s
  | some cmd =>
    match cmd.f with
    | none => none
    | some fn =>
      (fn s).map fun s1 =>
        { s1 with t := (s1.t + cmd.t) % 256, m := (s1.m + cmd.t * 4) % 256 }

/-- step from cpu.go lines 288-310: clear the counters, finish the boot rom
overlay when PC has reached 0x100, settle io, service interrupts, fetch, and
execute while holding the GPU register key. -/
def step (tbl : Table) (s : Cpu) : Option Cpu := do
  let s0 : Cpu := { s with m := 0, t := 0 }
  let s1 : Cpu :=
    if s0.biosFinished = false ∧ s0.pc = 0x100
    then { s0 with biosFinished := true } else s0
  let s2 ← ioPhase s1
  let s3 ← interrupt s2
  let s4 ← fetch tbl s3
  let s5 ← lockAddrC AddrGpuRegs s4
  let s6 ← execute tbl s5
  unlockAddrC AddrGpuRegs s6

/-- Iterate step n times. -/
def stepN (tbl : Table) (n : Nat) (s : Cpu) : Option Cpu :=
  match n with
  | 0 => some s
  | n+1 => (stepN tbl n s).bind (step tbl)

/-- NewCpu pads a nonempty boot rom to 0x100 bytes with zeros by copying it
into a fresh zeroed slice. -/
def padBios (bios : List Nat) : List Nat :=
  bios.take 0x100 ++ List.replicate (0x100 - (bios.take 0x100).length) 0

/-- The key set NewCpu builds (cpu.go lines 78-86): locks on AddrRom,
AddrRam, AddrIF, AddrZero and AddrIE. -/
def cpuInitKeys : Nat :=
  (do
    let k1 ← LockAddr AddrRom 0
    let k2 ← LockAddr AddrRam k1
    let k3 ← LockAddr AddrIF k2
    let k4 ← LockAddr AddrZero k3
    LockAddr AddrIE k4).getD 0

/-- NewCpu from cpu.go lines 53-106: registers start at the zero value of
the spec-modelled register8 (section 4.A), SP stays at the Go zero value 0
(it is absent from the composite literal), PC = 0, IME = 1; a nonempty boot
rom is padded to 0x100 bytes and biosFinished starts false, otherwise true. -/
def NewCpu (mm : Mmu) (bios : List Nat) : Cpu :=
  { a := 0, b := 0, c := 0, d := 0, e := 0, f := 0, h := 0, l := 0,
    sp := 0, pc := 0, m := 0, t := 0, inst := { o := 0, p := [] },
    ime := 1, mmu := mm, mmuKeys := cpuInitKeys,
    bios := if bios.length > 0 then padBios bios else bios,
    biosFinished := if bios.length > 0 then false else true }

/-- The lowest-numbered pending interrupt bit among VBlank 0x01, LCD-STAT
0x02, Timer 0x04, Serial 0x08, Keypad 0x10, following the words of claim C1;
0 when none of the five is pending. -/
def specLowestPending (pending : Nat) : Nat :=
  if pending &&& 0x01 ≠ 0 then 0x01
  else if pending &&& 0x02 ≠ 0 then 0x02
  else if pending &&& 0x04 ≠ 0 then 0x04
  else if pending &&& 0x08 ≠ 0 then 0x08
  else if pending &&& 0x10 ≠ 0 then 0x10
  else 0

/-- The interrupt vector table as claim C1 lists it. -/
def specVector (i : Nat) : Nat :=
  if i = 0x01 then 0x40
  else if i = 0x02 then 0x48
  else if i = 0x04 then 0x50
  else if i = 0x08 then 0x58
  else if i = 0x10 then 0x60
  else 0

end Jibi

/-- A jibi opcode table whose entry 0 is an unused (nil executor) entry, for
exercising the execute phase on an unused opcode. -/
def tblNilEntry : Jibi.Table :=
  fun op => if op = 0 then some { b := 0, t := 0, f := none } else none

/-- A freshly constructed jibi cpu over a fresh mmu with no boot rom. -/
def cpuFresh : Jibi.Cpu := Jibi.NewCpu (Jibi.NewMmu []) []

/-- A jibi cpu constructed with a cartridge rom and a boot rom, so the boot
overlay starts mapped. -/
def cpuBoot : Jibi.Cpu :=
  Jibi.NewCpu (Jibi.NewMmu (List.replicate 0x200 0x55))
    (List.replicate 0x100 0xAB)

/-- The interrupt-dispatch scenario state of the spec: IME = 1, IE = 0x05,
IF = 0x05 (VBlank and Timer pending), SP = 0xFFFE, PC = 0x1234. -/
def cpuIntW : Jibi.Cpu :=
  { Jibi.NewCpu (Jibi.NewMmu []) [] with
    mmu := { Jibi.NewMmu [] with
      ie := 0x05,
      ioIF := { value := 0x05, read := 0x05, write := 0x05, queued := false } },
    sp := 0xFFFE,
    pc := 0x1234 }

/-- Claim C2 (evaluation of the code at the failing input): executing
JR NZ,-5 from PC = 0 with Z clear leaves PC = 0x0007, not
0x0002 - 5 = 0xFFFD: jr adds the magnitude of a negative offset to PC
instead of subtracting it, so a taken JR never moves PC backwards. -/
theorem claim2_jr_negative_eval :
    (Standalone.step Standalone.tblJR Standalone.jrStart).map (fun s => s.pc)
      = some 0x0007 ∧
    (Standalone.step Standalone.tblJR Standalone.jrStart).map (fun s => s.pc)
      ≠ some 0xFFFD := by
  constructor
  · decide
  · decide

/-- Claim C3: for all 8-bit a and b, sub returns r = (a - b) mod 256 and the
flags are exactly Z=(r==0), N=1, H=((a&0x0F) >= (b&0x0F)), C=(a >= b), the
inverted-borrow convention, with no other flag bits set. -/
theorem claim3_sub_flags (f a b : Nat) (ha : a < 256) (hb : b < 256) :
    ((Standalone.sub f a b).1 : Int) = ((a : Int) - (b : Int)) % 256 ∧
    (Standalone.sub f a b).2 =
      (if (Standalone.sub f a b).1 = 0 then 0x80 else 0) + 0x40 +
      (if a &&& 0x0F ≥ b &&& 0x0F then 0x20 else 0) +
      (if a ≥ b then 0x10 else 0) := by
  constructor
  · show (((a + 256 - b) % 256 : Nat) : Int) = ((a : Int) - (b : Int)) % 256
    omega
  · show (Standalone.sub f a b).2 =
      (if (a + 256 - b) % 256 = 0 then 0x80 else 0) + 0x40 +
      (if a &&& 0x0F ≥ b &&& 0x0F then 0x20 else 0) +
      (if a ≥ b then 0x10 else 0)
    simp only [Standalone.sub, Standalone.setFlag, Standalone.fset]
    split_ifs <;> rfl

/-- Witness for C3 at a = 0x3C, b = 0x0F. -/
theorem claim3_sub_flags_w :
    ((Standalone.sub 0 0x3C 0x0F).1 : Int) = ((0x3C : Int) - (0x0F : Int)) % 256 ∧
    (Standalone.sub 0 0x3C 0x0F).2 =
      (if (Standalone.sub 0 0x3C 0x0F).1 = 0 then 0x80 else 0) + 0x40 +
      (if 0x3C &&& 0x0F ≥ 0x0F &&& 0x0F then 0x20 else 0) +
      (if 0x3C ≥ 0x0F then 0x10 else 0) :=
  claim3_sub_flags 0 0x3C 0x0F (by decide) (by decide)

/-- Claim C4: for all 8-bit a and b, add returns r = (a + b) mod 256 and the
four flag bits are exactly Z=(r==0), N=0, H=((a&0x0F)+(b&0x0F))>0x0F,
C=(a+b)>0xFF. -/
theorem claim4_add_flags (f a b : Nat) (ha : a < 256) (hb : b < 256) :
    (Standalone.add f a b).1 = (a + b) % 256 ∧
    (Standalone.add f a b).2 =
      (if (Standalone.add f a b).1 = 0 then 0x80 else 0) +
      (if (a &&& 0x0F) + (b &&& 0x0F) > 0x0F then 0x20 else 0) +
      (if a + b > 0xFF then 0x10 else 0) := by
  constructor
  · rfl
  · show (Standalone.add f a b).2 =
      (if (a + b) % 256 = 0 then 0x80 else 0) +
      (if (a &&& 0x0F) + (b &&& 0x0F) > 0x0F then 0x20 else 0) +
      (if a + b > 0xFF then 0x10 else 0)
    simp only [Standalone.add, Standalone.setFlag, Standalone.fset]
    split_ifs <;> rfl

/-- Witness for C4 at a = 0x8F, b = 0x91. -/
theorem claim4_add_flags_w :
    (Standalone.add 0 0x8F 0x91).1 = (0x8F + 0x91) % 256 ∧
    (Standalone.add 0 0x8F 0x91).2 =
      (if (Standalone.add 0 0x8F 0x91).1 = 0 then 0x80 else 0) +
      (if (0x8F &&& 0x0F) + (0x91 &&& 0x0F) > 0x0F then 0x20 else 0) +
      (if 0x8F + 0x91 > 0xFF then 0x10 else 0) :=
  claim4_add_flags 0 0x8F 0x91 (by decide) (by decide)

/-- Every block selectAddressBlock can return is one of the declared region
bits (or abNil = 0). -/
theorem selectAddressBlock_mem (a blk start : Nat)
    (h : Jibi.selectAddressBlock a = some (blk, start)) :
    blk = 0 ∨ blk = 2 ∨ blk = 4 ∨ blk = 8 ∨ blk = 16 ∨ blk = 32 ∨ blk = 64 ∨
    blk = 128 ∨ blk = 256 ∨ blk = 512 ∨ blk = 1024 := by
  unfold Jibi.selectAddressBlock at h
  split_ifs at h <;>
    first
      | exact Option.noConfusion h
      | (rw [Option.some.injEq, Prod.mk.injEq] at h
         rcases h with ⟨h1, h2⟩
         subst h1
         decide)

/-- Absorption: (x ||| b) &&& b = b. -/
theorem lor_land_absorb (x b : Nat) : (x ||| b) &&& b = b := by
  apply Nat.eq_of_testBit_eq
  intro i
  rw [Nat.testBit_and, Nat.testBit_or]
  cases b.testBit i <;> simp

/-- Adding a disjoint bit set with ||| and clearing it again with
&&& (b ^^^ 0xFFFF) restores a 16-bit key set. -/
theorem land_lor_clear (x b : Nat) (hx : x < 65536) (hb : b < 65536)
    (h : x &&& b = 0) : (x ||| b) &&& (b ^^^ 65535) = x := by
  have h65 : (65535 : Nat) = 2 ^ 16 - 1 := by norm_num
  apply Nat.eq_of_testBit_eq
  intro i
  have hdisj : x.testBit i = true → b.testBit i = false := by
    intro hxt
    cases hbv : b.testBit i
    · rfl
    · have hand := congrArg (fun n => Nat.testBit n i) h
      simp [Nat.testBit_and, hxt, hbv] at hand
  rw [Nat.testBit_and, Nat.testBit_or, Nat.testBit_xor, h65,
      Nat.testBit_two_pow_sub_one]
  by_cases hi : i < 16
  · cases hxv : x.testBit i
    · cases hbv : b.testBit i <;> simp [hbv, hi]
    · simp [hdisj hxv, hi]
  · have h16 : (65536 : Nat) ≤ 2 ^ i := by
      have he : (65536 : Nat) = 2 ^ 16 := by norm_num
      rw [he]
      exact Nat.pow_le_pow_right (by norm_num) (by omega)
    have hxz : x.testBit i = false := Nat.testBit_lt_two_pow (by omega)
    have hbz : b.testBit i = false := Nat.testBit_lt_two_pow (by omega)
    simp [hxz, hbz, hi]

/-- A 16-bit value is unchanged by masking with 0xFFFF. -/
theorem land_ffff (x : Nat) (hx : x < 65536) : x &&& 65535 = x := by
  have h65 : (65535 : Nat) = 2 ^ 16 - 1 := by norm_num
  rw [h65]
  exact Nat.and_pow_two_sub_one_of_lt_two_pow (by omega)

/-- Claim C8: a WriteByteAt anywhere in the ROM region 0x0000-0x7FFF, with
any byte and any key set, returns with the whole Mmu state unchanged and no
error: ROM writes are silently ignored. -/
theorem claim8_rom_writes_ignored (mm : Jibi.Mmu) (a bv ak : Nat)
    (h : a < 0x8000) :
    Jibi.WriteByteAt mm a bv ak = some mm := by
  have hsel : Jibi.selectAddressBlock a = some (Jibi.abRom, 0) := by
    unfold Jibi.selectAddressBlock
    rw [if_pos (show a < Jibi.AddrVRam from h)]
  unfold Jibi.WriteByteAt
  rw [hsel]
  rfl

/-- Witness for C8 at address 0x1234. -/
theorem claim8_rom_writes_ignored_w :
    Jibi.WriteByteAt (Jibi.NewMmu []) 0x1234 0xAB 0 = some (Jibi.NewMmu []) :=
  claim8_rom_writes_ignored (Jibi.NewMmu []) 0x1234 0xAB 0 (by decide)

/-- Claim C9: for any mapped address, LockAddr is the identity on a key set
already holding the region bit and otherwise adds exactly that bit;
UnlockAddr is the identity when the bit is absent and otherwise clears
exactly that bit; and unlocking after locking restores any key set that did
not hold the bit. -/
theorem claim9_lock_unlock (a ak blk start : Nat)
    (h : Jibi.selectAddressBlock a = some (blk, start)) (hak : ak < 65536) :
    (ak &&& blk = blk → Jibi.LockAddr a ak = some ak) ∧
    (¬ (ak &&& blk = blk) → Jibi.LockAddr a ak = some (ak ||| blk)) ∧
    (¬ (ak &&& blk = blk) → Jibi.UnlockAddr a ak = some ak) ∧
    (ak &&& blk = blk → Jibi.UnlockAddr a ak = some (ak &&& (blk ^^^ 0xFFFF))) ∧
    (ak &&& blk = 0 → (Jibi.LockAddr a ak).bind (Jibi.UnlockAddr a) = some ak)
    := by
  have hblk : blk < 65536 := by
    rcases selectAddressBlock_mem a blk start h with
      hb | hb | hb | hb | hb | hb | hb | hb | hb | hb | hb <;> omega
  refine ⟨?_, ?_, ?_, ?_, ?_⟩
  · intro hin
    unfold Jibi.LockAddr
    rw [h]
    simp [hin]
  · intro hout
    unfold Jibi.LockAddr
    rw [h]
    simp [hout]
  · intro hout
    unfold Jibi.UnlockAddr
    rw [h]
    simp [hout]
  · intro hin
    unfold Jibi.UnlockAddr
    rw [h]
    simp [hin]
  · intro hzero
    by_cases hb0 : blk = 0
    · subst hb0
      unfold Jibi.LockAddr Jibi.UnlockAddr
      rw [h]
      simp [land_ffff ak hak]
    · have hout : ¬ (ak &&& blk = blk) := by
        rw [hzero]
        omega
      have hlock : Jibi.LockAddr a ak = some (ak ||| blk) := by
        unfold Jibi.LockAddr
        rw [h]
        simp [hout]
      have hunlock : Jibi.UnlockAddr a (ak ||| blk) =
          some ((ak ||| blk) &&& (blk ^^^ 65535)) := by
        unfold Jibi.UnlockAddr
        rw [h]
        simp [lor_land_absorb]
      rw [hlock]
      show Jibi.UnlockAddr a (ak ||| blk) = some ak
      rw [hunlock, land_lor_clear ak blk hak hblk hzero]

/-- Witness for C9 at the VRAM base address with the empty key set. -/
theorem claim9_lock_unlock_w :
    Jibi.LockAddr 0x8000 0 = some (0 ||| 4) ∧
    (Jibi.LockAddr 0x8000 0).bind (Jibi.UnlockAddr 0x8000) = some 0 := by
  have h := claim9_lock_unlock 0x8000 0 4 0x8000 (by decide) (by decide)
  exact ⟨h.2.1 (by decide), h.2.2.2.2 (by decide)⟩

/-- Claim C7 counterexample: with the empty key set, reading the P1 port at
0xFF00 succeeds (it returns the non-owner read value 0) and writing the IF
port at 0xFF0F succeeds (it queues the write), so unauthorized access to the
mmio ports is not a fatal error. -/
theorem claim7_counterexample :
    Jibi.ReadByteAt (Jibi.NewMmu []) 0xFF00 0 = some 0 ∧
    (Jibi.WriteByteAt (Jibi.NewMmu []) 0xFF0F 5 0).isSome = true := by
  exact ⟨rfl, rfl⟩

/-- Claim C7 amended: authorization is enforced for every mapped region
except the mmio ports P1 and IF: an unauthorized ReadByteAt outside P1 and
IF is a fatal error, and an unauthorized WriteByteAt outside P1, IF and ROM
(where writes are silently ignored) is a fatal error. -/
theorem claim7_auth_required (mm : Jibi.Mmu) (a bv ak blk start : Nat)
    (h : Jibi.selectAddressBlock a = some (blk, start))
    (hown : ¬ (ak &&& blk = blk)) :
    (blk ≠ Jibi.abP1 → blk ≠ Jibi.abIF → Jibi.ReadByteAt mm a ak = none) ∧
    (blk ≠ Jibi.abRom → blk ≠ Jibi.abP1 → blk ≠ Jibi.abIF →
      Jibi.WriteByteAt mm a bv ak = none) := by
  constructor
  · intro hp1 hif
    unfold Jibi.ReadByteAt
    rw [h]
    simp [hown, hp1, hif]
  · intro hrom hp1 hif
    unfold Jibi.WriteByteAt
    rw [h]
    simp [hown, hrom, hp1, hif]

/-- Witness for the amended C7 at the VRAM base address, empty key set. -/
theorem claim7_auth_required_w :
    Jibi.ReadByteAt (Jibi.NewMmu []) 0x8000 0 = none ∧
    Jibi.WriteByteAt (Jibi.NewMmu []) 0x8000 3 0 = none := by
  have h := claim7_auth_required (Jibi.NewMmu []) 0x8000 3 0 4 0x8000
    (by decide) (by decide)
  exact ⟨h.1 (by decide) (by decide), h.2 (by decide) (by decide) (by decide)⟩

/-- Claim C10 counterexample: right after jibi NewCpu the stack pointer is 0
and not 0xFFFE: sp is absent from the NewCpu composite literal, so it keeps
the Go zero value. -/
theorem claim10_counterexample :
    (Jibi.NewCpu (Jibi.NewMmu []) []).sp = 0 ∧
    (Jibi.NewCpu (Jibi.NewMmu []) []).sp ≠ 0xFFFE := by
  exact ⟨rfl, by decide⟩

/-- Claim C10 amended: after jibi NewCpu the registers A,B,C,D,E,F,H,L are
0, SP is 0 (not 0xFFFE), PC is 0, IME is 1, and the boot rom overlay is
mapped exactly when a boot rom was provided; the standalone reset sets
A..L = 0, SP = 0xFFFE and PC = 0 (that cpu has no IME bit). -/
theorem claim10_initial_state :
    (∀ (mm : Jibi.Mmu) (bios : List Nat),
      (Jibi.NewCpu mm bios).a = 0 ∧ (Jibi.NewCpu mm bios).b = 0 ∧
      (Jibi.NewCpu mm bios).c = 0 ∧ (Jibi.NewCpu mm bios).d = 0 ∧
      (Jibi.NewCpu mm bios).e = 0 ∧ (Jibi.NewCpu mm bios).f = 0 ∧
      (Jibi.NewCpu mm bios).h = 0 ∧ (Jibi.NewCpu mm bios).l = 0 ∧
      (Jibi.NewCpu mm bios).sp = 0 ∧ (Jibi.NewCpu mm bios).pc = 0 ∧
      (Jibi.NewCpu mm bios).ime = 1 ∧
      ((Jibi.NewCpu mm bios).biosFinished = false ↔ bios ≠ [])) ∧
    (∀ s : Standalone.Cpu0,
      (Standalone.reset s).a = 0 ∧ (Standalone.reset s).b = 0 ∧
      (Standalone.reset s).c = 0 ∧ (Standalone.reset s).d = 0 ∧
      (Standalone.reset s).e = 0 ∧ (Standalone.reset s).f = 0 ∧
      (Standalone.reset s).h = 0 ∧ (Standalone.reset s).l = 0 ∧
      (Standalone.reset s).sp = 0xFFFE ∧ (Standalone.reset s).pc = 0) := by
  constructor
  · intro mm bios
    refine ⟨rfl, rfl, rfl, rfl, rfl, rfl, rfl, rfl, rfl, rfl, rfl, ?_⟩
    unfold Jibi.NewCpu
    cases bios <;> simp
  · intro s
    exact ⟨rfl, rfl, rfl, rfl, rfl, rfl, rfl, rfl, rfl, rfl⟩

/-- The key set NewCpu builds is abRom+abRam+abIF+abZero+abIE = 1682. -/
theorem cpuInitKeys_eq : Jibi.cpuInitKeys = 1682 := by decide

/-- With the cpu key set, reading IE (0xFFFF) returns the ie byte and leaves
the cpu unchanged. -/
theorem readByte_IE (s : Jibi.Cpu) (hkeys : s.mmuKeys = 1682) :
    Jibi.readByte s Jibi.AddrIE = some (s.mmu.ie, s) := by
  unfold Jibi.readByte Jibi.ReadByteAt Jibi.selectAddressBlock
  rw [hkeys]
  simp [Jibi.AddrIE, Jibi.AddrVRam, Jibi.AddrERam, Jibi.AddrRam,
    Jibi.AddrOam, Jibi.AddrOamEnd, Jibi.AddrP1, Jibi.AddrIF,
    Jibi.AddrGpuRegs, Jibi.AddrGpuRegsEnd, Jibi.AddrZero,
    Jibi.abRom, Jibi.abVRam, Jibi.abRam, Jibi.abOam, Jibi.abP1, Jibi.abIF,
    Jibi.abGpuRegs, Jibi.abZero, Jibi.abIE,
    (by decide : (1682 : Nat) &&& 1024 = 1024)]

/-- With the cpu key set, reading IF (0xFF0F) returns the owner-visible IF
port value and leaves the cpu unchanged. -/
theorem readByte_IF (s : Jibi.Cpu) (hkeys : s.mmuKeys = 1682) :
    Jibi.readByte s Jibi.AddrIF = some (s.mmu.ioIF.value, s) := by
  unfold Jibi.readByte Jibi.ReadByteAt Jibi.selectAddressBlock
    Jibi.mmioReadByte
  rw [hkeys]
  simp [Jibi.AddrIE, Jibi.AddrVRam, Jibi.AddrERam, Jibi.AddrRam,
    Jibi.AddrOam, Jibi.AddrOamEnd, Jibi.AddrP1, Jibi.AddrIF,
    Jibi.AddrGpuRegs, Jibi.AddrGpuRegsEnd, Jibi.AddrZero,
    Jibi.abRom, Jibi.abVRam, Jibi.abRam, Jibi.abOam, Jibi.abP1, Jibi.abIF,
    Jibi.abGpuRegs, Jibi.abZero, Jibi.abIE,
    (by decide : (1682 : Nat) &&& 128 = 128)]

/-- With the cpu key set, writing IF (0xFF0F) performs an owner mmio write
on the IF port. -/
theorem writeByte_IF (s : Jibi.Cpu) (bv : Nat) (hkeys : s.mmuKeys = 1682) :
    Jibi.writeByte s Jibi.AddrIF bv = some
      { s with mmu := { s.mmu with
          ioIF := Jibi.mmioWriteByte s.mmu.ioIF bv true } } := by
  unfold Jibi.writeByte Jibi.WriteByteAt Jibi.selectAddressBlock
  rw [hkeys]
  simp [Jibi.AddrIE, Jibi.AddrVRam, Jibi.AddrERam, Jibi.AddrRam,
    Jibi.AddrOam, Jibi.AddrOamEnd, Jibi.AddrP1, Jibi.AddrIF,
    Jibi.AddrGpuRegs, Jibi.AddrGpuRegsEnd, Jibi.AddrZero,
    Jibi.abRom, Jibi.abVRam, Jibi.abRam, Jibi.abOam, Jibi.abP1, Jibi.abIF,
    Jibi.abGpuRegs, Jibi.abZero, Jibi.abIE,
    (by decide : (1682 : Nat) &&& 128 = 128)]

/-- Addresses in 0xFF80..0xFFFE select the zero page block. -/
theorem selectAddressBlock_zeroPage (a : Nat) (h1 : 0xFF80 ≤ a)
    (h2 : a < 0xFFFF) :
    Jibi.selectAddressBlock a = some (Jibi.abZero, Jibi.AddrZero) := by
  unfold Jibi.selectAddressBlock
  rw [if_neg (show ¬ a < Jibi.AddrVRam by unfold Jibi.AddrVRam; omega),
      if_neg (show ¬ a < Jibi.AddrERam by unfold Jibi.AddrERam; omega),
      if_neg (show ¬ a < Jibi.AddrRam by unfold Jibi.AddrRam; omega),
      if_neg (show ¬ a < Jibi.AddrOam by unfold Jibi.AddrOam; omega),
      if_neg (show ¬ a < Jibi.AddrOamEnd by unfold Jibi.AddrOamEnd; omega),
      if_neg (show ¬ a = Jibi.AddrP1 by unfold Jibi.AddrP1; omega),
      if_neg (show ¬ a = Jibi.AddrIF by unfold Jibi.AddrIF; omega),
      if_neg (show ¬ (Jibi.AddrGpuRegs ≤ a ∧ a < Jibi.AddrGpuRegsEnd) by
        unfold Jibi.AddrGpuRegs Jibi.AddrGpuRegsEnd; omega),
      if_pos (show Jibi.AddrZero ≤ a ∧ a < Jibi.AddrIE by
        unfold Jibi.AddrZero Jibi.AddrIE; omega)]

/-- With the cpu key set, a write to the zero page 0xFF80..0xFFFE updates
the zero block at offset a - 0xFF80. -/
theorem writeByte_zeroPage (s : Jibi.Cpu) (a bv : Nat) (h1 : 0xFF80 ≤ a)
    (h2 : a < 0xFFFF) (hkeys : s.mmuKeys = 1682) :
    Jibi.writeByte s a bv = some
      { s with mmu := { s.mmu with
          zero := Jibi.upd s.mmu.zero (a - 0xFF80) bv } } := by
  unfold Jibi.writeByte
  rw [if_neg (show ¬ (Jibi.AddrVRam ≤ a ∧ a ≤ Jibi.AddrRam) by
        unfold Jibi.AddrVRam Jibi.AddrRam; omega),
      if_neg (show ¬ (Jibi.AddrOam ≤ a ∧ a ≤ Jibi.AddrOamEnd) by
        unfold Jibi.AddrOam Jibi.AddrOamEnd; omega)]
  unfold Jibi.WriteByteAt
  rw [selectAddressBlock_zeroPage a h1 h2, hkeys]
  simp [Jibi.AddrZero, Jibi.abRom, Jibi.abVRam, Jibi.abRam, Jibi.abOam,
    Jibi.abP1, Jibi.abIF, Jibi.abGpuRegs, Jibi.abZero, Jibi.abIE,
    (by decide : (1682 : Nat) &&& 512 = 512)]

/-- With the cpu key set and SP in 0xFF82..0xFFFE, push writes the low and
high bytes of the word at SP-2 and SP-1 in the zero page and decrements SP
by two. -/
theorem push_spZero (s : Jibi.Cpu) (w : Nat) (hkeys : s.mmuKeys = 1682)
    (hsp1 : 0xFF82 ≤ s.sp) (hsp2 : s.sp ≤ 0xFFFE) :
    Jibi.push s w = some
      { s with
        mmu := { s.mmu with
          zero := Jibi.upd
            (Jibi.upd s.mmu.zero (s.sp - 2 - 0xFF80) (w % 256))
            (s.sp - 1 - 0xFF80) (w / 256 % 256) },
        sp := s.sp - 2 } := by
  have e1 : (s.sp + 65534) % 65536 = s.sp - 2 := by omega
  unfold Jibi.push Jibi.writeWord
  rw [e1, writeByte_zeroPage s (s.sp - 2) (w % 256) (by omega) (by omega)
        hkeys]
  simp only [Option.bind_eq_bind, Option.some_bind]
  have e2 : (s.sp - 2 + 1) % 65536 = s.sp - 1 := by omega
  rw [e2, writeByte_zeroPage]
  · simp
  · omega
  · omega
  · exact hkeys

/-- getInterrupt picks exactly the lowest-numbered bit pending in both ie
and iflag, in the sense of the claim-side selector. -/
theorem getInterrupt_eq_specLowest (ie iflag : Nat) :
    Jibi.getInterrupt ie iflag = Jibi.specLowestPending (ie &&& iflag) := by
  have hc : ∀ k : Nat, k &&& ie &&& iflag = ie &&& iflag &&& k := by
    intro k
    apply Nat.eq_of_testBit_eq
    intro i
    simp only [Nat.testBit_and]
    cases k.testBit i <;> cases ie.testBit i <;> cases iflag.testBit i <;> rfl
  unfold Jibi.getInterrupt Jibi.specLowestPending Jibi.InterruptVblank
    Jibi.InterruptLCDC Jibi.InterruptTimer Jibi.InterruptSerial
    Jibi.InterruptKeypad
  simp only [hc]

/-- The modelled Interrupt.Address table coincides with the vector table as
the claim lists it. -/
theorem interruptAddress_eq_specVector (i : Nat) :
    Jibi.interruptAddress i = Jibi.specVector i := rfl

/-- Clearing one of the five interrupt bits with &&& (b ^^^ 0xFF) clears
exactly that bit of a byte: every other bit position is unchanged and the
cleared position reads false. -/
theorem clear_bit_testBit (iflag lg j : Nat) (hif : iflag < 256)
    (hlg : lg < 5) :
    (2 ^ j ≠ 2 ^ lg →
      (iflag &&& (2 ^ lg ^^^ 255)).testBit j = iflag.testBit j) ∧
    (2 ^ j = 2 ^ lg → (iflag &&& (2 ^ lg ^^^ 255)).testBit j = false) := by
  constructor
  · intro hne
    rw [Nat.testBit_and]
    have hjne : j ≠ lg := fun he => hne (by rw [he])
    by_cases hj8 : j < 8
    · have hmask : (2 ^ lg ^^^ 255).testBit j = true := by
        interval_cases lg <;> interval_cases j <;>
          first
            | decide
            | exact absurd rfl hjne
      rw [hmask]
      cases iflag.testBit j <;> rfl
    · have h16 : (256 : Nat) ≤ 2 ^ j := by
        have he : (256 : Nat) = 2 ^ 8 := by norm_num
        rw [he]
        exact Nat.pow_le_pow_right (by norm_num) (by omega)
      have h1 : iflag.testBit j = false := Nat.testBit_lt_two_pow (by omega)
      have h2 : (2 ^ lg ^^^ 255).testBit j = false := by
        apply Nat.testBit_lt_two_pow
        have hx : (2 ^ lg ^^^ 255) < 256 := by
          interval_cases lg <;> decide
        omega
      simp [h1, h2]
  · intro he
    have hj : j = lg := Nat.pow_right_injective (by norm_num) he
    subst hj
    rw [Nat.testBit_and]
    have hmask : (2 ^ j ^^^ 255).testBit j = false := by
      interval_cases j <;> decide
    simp [hmask]

/-- With IME set and getInterrupt picking b > 0, the interrupt phase clears
IME, pushes PC into the zero page stack, jumps to the vector of b and writes
IF back with the bit of b cleared. -/
theorem interrupt_dispatch_core (s : Jibi.Cpu) (b : Nat)
    (hkeys : s.mmuKeys = 1682) (hime : s.ime = 1)
    (hsp1 : 0xFF82 ≤ s.sp) (hsp2 : s.sp ≤ 0xFFFE)
    (hget : Jibi.getInterrupt s.mmu.ie s.mmu.ioIF.value = b) (hb : 0 < b) :
    Jibi.interrupt s = some
      { s with
        ime := 0,
        sp := s.sp - 2,
        pc := Jibi.interruptAddress b,
        mmu := { s.mmu with
          zero := Jibi.upd
            (Jibi.upd s.mmu.zero (s.sp - 2 - 0xFF80) (s.pc % 256))
            (s.sp - 1 - 0xFF80) (s.pc / 256 % 256),
          ioIF := Jibi.mmioWriteByte s.mmu.ioIF
            (s.mmu.ioIF.value &&& (b ^^^ 0xFF)) true } } := by
  unfold Jibi.interrupt
  rw [if_pos hime, readByte_IE s hkeys]
  simp only [Option.bind_eq_bind, Option.some_bind]
  rw [readByte_IF s hkeys]
  simp only [Option.some_bind]
  rw [hget, if_pos hb]
  rw [push_spZero { s with ime := 0 } s.pc hkeys hsp1 hsp2]
  simp only [Option.some_bind]
  unfold Jibi.jpC Jibi.resetInterrupt
  rw [writeByte_IF]
  exact hkeys

/-- If none of the five low bits of p is set alone, p &&& 31 = 0. -/
theorem land31_eq_zero (p : Nat) (h0 : p &&& 1 = 0) (h1 : p &&& 2 = 0)
    (h2 : p &&& 4 = 0) (h3 : p &&& 8 = 0) (h4 : p &&& 16 = 0) :
    p &&& 31 = 0 := by
  have hbit : ∀ k, p &&& 2 ^ k = 0 → p.testBit k = false := by
    intro k hk
    have hc := congrArg (fun n => n.testBit k) hk
    simpa [Nat.testBit_and] using hc
  have b0 : p.testBit 0 = false := hbit 0 (by simpa using h0)
  have b1 : p.testBit 1 = false := hbit 1 (by simpa using h1)
  have b2 : p.testBit 2 = false := hbit 2 (by simpa using h2)
  have b3 : p.testBit 3 = false := hbit 3 (by simpa using h3)
  have b4 : p.testBit 4 = false := hbit 4 (by simpa using h4)
  apply Nat.eq_of_testBit_eq
  intro i
  rw [Nat.testBit_and]
  by_cases hi : i < 5
  · interval_cases i <;> simp [b0, b1, b2, b3, b4]
  · have h31 : (31 : Nat).testBit i = false := by
      apply Nat.testBit_lt_two_pow
      have h32 : (32 : Nat) ≤ 2 ^ i := by
        have he : (32 : Nat) = 2 ^ 5 := by norm_num
        rw [he]
        exact Nat.pow_le_pow_right (by norm_num) (by omega)
      omega
    simp [h31]

/-- When one of the five low bits of p is set, the lowest-pending selector
returns one of the five interrupt masks, a positive value. -/
theorem specLowestPending_spec (p : Nat) (hp : p &&& 31 ≠ 0) :
    (Jibi.specLowestPending p = 1 ∨ Jibi.specLowestPending p = 2 ∨
     Jibi.specLowestPending p = 4 ∨ Jibi.specLowestPending p = 8 ∨
     Jibi.specLowestPending p = 16) ∧ 0 < Jibi.specLowestPending p := by
  unfold Jibi.specLowestPending
  by_cases h1 : p &&& 1 ≠ 0
  · rw [if_pos h1]
    decide
  rw [if_neg h1]
  by_cases h2 : p &&& 2 ≠ 0
  · rw [if_pos h2]
    decide
  rw [if_neg h2]
  by_cases h3 : p &&& 4 ≠ 0
  · rw [if_pos h3]
    decide
  rw [if_neg h3]
  by_cases h4 : p &&& 8 ≠ 0
  · rw [if_pos h4]
    decide
  rw [if_neg h4]
  by_cases h5 : p &&& 16 ≠ 0
  · rw [if_pos h5]
    decide
  exact absurd (land31_eq_zero p (not_not.mp h1) (not_not.mp h2)
    (not_not.mp h3) (not_not.mp h4) (not_not.mp h5)) hp

/-- clear_bit_testBit specialized to an interrupt mask given as one of the
five literals. -/
theorem clear_bit_b (iflag b j : Nat) (hif : iflag < 256)
    (hb : b = 1 ∨ b = 2 ∨ b = 4 ∨ b = 8 ∨ b = 16) :
    (2 ^ j ≠ b → (iflag &&& (b ^^^ 255)).testBit j = iflag.testBit j) ∧
    (2 ^ j = b → (iflag &&& (b ^^^ 255)).testBit j = false) := by
  rcases hb with hb | hb | hb | hb | hb <;> subst hb
  · exact clear_bit_testBit iflag 0 j hif (by norm_num)
  · exact clear_bit_testBit iflag 1 j hif (by norm_num)
  · exact clear_bit_testBit iflag 2 j hif (by norm_num)
  · exact clear_bit_testBit iflag 3 j hif (by norm_num)
  · exact clear_bit_testBit iflag 4 j hif (by norm_num)

/-- Claim C1: when the interrupt phase runs with IME = 1 and at least one of
the five interrupt bits set in both IE and IF, it picks the lowest-numbered
such bit (VBlank 0x01, LCD-STAT 0x02, Timer 0x04, Serial 0x08, Keypad 0x10),
clears IME to 0, pushes the pre-dispatch PC onto the stack (SP decremented
by two, low byte then high byte), sets PC to that interrupt vector, and
clears exactly that bit in IF, leaving the other IF bits and IE unchanged. -/
theorem claim1_interrupt_dispatch (s : Jibi.Cpu)
    (hkeys : s.mmuKeys = Jibi.cpuInitKeys) (hime : s.ime = 1)
    (hpend : (s.mmu.ie &&& s.mmu.ioIF.value) &&& 0x1F ≠ 0)
    (hif : s.mmu.ioIF.value < 256)
    (hsp1 : 0xFF82 ≤ s.sp) (hsp2 : s.sp ≤ 0xFFFE) :
    ∃ s2, Jibi.interrupt s = some s2 ∧
      s2.ime = 0 ∧
      s2.pc = Jibi.specVector
        (Jibi.specLowestPending (s.mmu.ie &&& s.mmu.ioIF.value)) ∧
      s2.mmu.ie = s.mmu.ie ∧
      s2.mmu.ioIF.value =
        s.mmu.ioIF.value &&&
          (Jibi.specLowestPending (s.mmu.ie &&& s.mmu.ioIF.value) ^^^ 0xFF) ∧
      (∀ j, 2 ^ j ≠ Jibi.specLowestPending (s.mmu.ie &&& s.mmu.ioIF.value) →
        s2.mmu.ioIF.value.testBit j = s.mmu.ioIF.value.testBit j) ∧
      (∀ j, 2 ^ j = Jibi.specLowestPending (s.mmu.ie &&& s.mmu.ioIF.value) →
        s2.mmu.ioIF.value.testBit j = false) ∧
      s2.sp = s.sp - 2 ∧
      s2.mmu.zero (s.sp - 2 - 0xFF80) = s.pc % 256 ∧
      s2.mmu.zero (s.sp - 1 - 0xFF80) = s.pc / 256 % 256 := by
  have hk : s.mmuKeys = 1682 := by rw [hkeys, cpuInitKeys_eq]
  obtain ⟨hcases, hpos⟩ :=
    specLowestPending_spec (s.mmu.ie &&& s.mmu.ioIF.value) hpend
  have hget : Jibi.getInterrupt s.mmu.ie s.mmu.ioIF.value =
      Jibi.specLowestPending (s.mmu.ie &&& s.mmu.ioIF.value) :=
    getInterrupt_eq_specLowest s.mmu.ie s.mmu.ioIF.value
  have hcore := interrupt_dispatch_core s
    (Jibi.specLowestPending (s.mmu.ie &&& s.mmu.ioIF.value))
    hk hime hsp1 hsp2 hget hpos
  refine ⟨_, hcore, rfl, rfl, rfl, rfl, ?_, ?_, rfl, ?_, ?_⟩
  · intro j hj
    exact (clear_bit_b s.mmu.ioIF.value
      (Jibi.specLowestPending (s.mmu.ie &&& s.mmu.ioIF.value)) j hif
      hcases).1 hj
  · intro j hj
    exact (clear_bit_b s.mmu.ioIF.value
      (Jibi.specLowestPending (s.mmu.ie &&& s.mmu.ioIF.value)) j hif
      hcases).2 hj
  · have hne : s.sp - 2 - 0xFF80 ≠ s.sp - 1 - 0xFF80 := by omega
    simp only [Jibi.upd]
    rw [if_neg hne]
    simp
  · simp only [Jibi.upd]
    simp

/-- Witness for C1: the interrupt-dispatch scenario of the spec, IME = 1,
IE = 0x05, IF = 0x05, SP = 0xFFFE, PC = 0x1234: VBlank is dispatched, so
PC = 0x0040, IME = 0, IF = 0x04, SP = 0xFFFC and 0x34, 0x12 land in the
zero page stack bytes. -/
theorem claim1_interrupt_dispatch_w :
    ∃ s2, Jibi.interrupt cpuIntW = some s2 ∧ s2.ime = 0 ∧ s2.pc = 0x40 ∧
      s2.mmu.ie = 0x05 ∧ s2.mmu.ioIF.value = 0x04 ∧ s2.sp = 0xFFFC ∧
      s2.mmu.zero 0x7C = 0x34 ∧ s2.mmu.zero 0x7D = 0x12 := by
  obtain ⟨s2, h0, h1, h2, h3, h4, hu1, hu2, h7, h8, h9⟩ :=
    claim1_interrupt_dispatch cpuIntW rfl rfl (by decide) (by decide)
      (by decide) (by decide)
  have e8 : cpuIntW.sp - 2 - 0xFF80 = 0x7C := by decide
  have e9 : cpuIntW.sp - 1 - 0xFF80 = 0x7D := by decide
  rw [e8] at h8
  rw [e9] at h9
  refine ⟨s2, h0, h1, ?_, ?_, ?_, ?_, ?_, ?_⟩
  · rw [h2]
    decide
  · rw [h3]
    decide
  · rw [h4]
    decide
  · rw [h7]
    decide
  · rw [h8]
    decide
  · rw [h9]
    decide

/-- lockAddr only changes the key set. -/
theorem lockAddrC_bf (a : Nat) (s s2 : Jibi.Cpu)
    (h : Jibi.lockAddrC a s = some s2) :
    s2.biosFinished = s.biosFinished ∧ s2.bios = s.bios ∧
      s2.mmu = s.mmu ∧ s2.pc = s.pc := by
  unfold Jibi.lockAddrC at h
  rw [Option.map_eq_some'] at h
  obtain ⟨k, hk1, hk2⟩ := h
  subst hk2
  exact ⟨rfl, rfl, rfl, rfl⟩

/-- unlockAddr only changes the key set. -/
theorem unlockAddrC_bf (a : Nat) (s s2 : Jibi.Cpu)
    (h : Jibi.unlockAddrC a s = some s2) :
    s2.biosFinished = s.biosFinished ∧ s2.bios = s.bios ∧
      s2.mmu = s.mmu ∧ s2.pc = s.pc := by
  unfold Jibi.unlockAddrC at h
  rw [Option.map_eq_some'] at h
  obtain ⟨k, hk1, hk2⟩ := h
  subst hk2
  exact ⟨rfl, rfl, rfl, rfl⟩

/-- readByte never changes the boot overlay state. -/
theorem readByte_bf (s : Jibi.Cpu) (a v : Nat) (s2 : Jibi.Cpu)
    (h : Jibi.readByte s a = some (v, s2)) :
    s2.biosFinished = s.biosFinished ∧ s2.bios = s.bios := by
  unfold Jibi.readByte at h
  split at h
  · rw [Option.map_eq_some'] at h
    obtain ⟨b, hb1, hb2⟩ := h
    rw [Prod.mk.injEq] at hb2
    rw [← hb2.2]
    exact ⟨rfl, rfl⟩
  · split at h
    · simp only [Option.bind_eq_bind, Option.bind_eq_some] at h
      obtain ⟨s1, hs1, v1, hv1, s3, hs3, hfin⟩ := h
      simp only [Option.pure_def, Option.some.injEq, Prod.mk.injEq] at hfin
      rw [← hfin.2]
      obtain ⟨he1, he2, _, _⟩ := unlockAddrC_bf _ _ _ hs3
      obtain ⟨he3, he4, _, _⟩ := lockAddrC_bf _ _ _ hs1
      exact ⟨he1.trans he3, he2.trans he4⟩
    · split at h
      · simp only [Option.bind_eq_bind, Option.bind_eq_some] at h
        obtain ⟨s1, hs1, v1, hv1, s3, hs3, hfin⟩ := h
        simp only [Option.pure_def, Option.some.injEq, Prod.mk.injEq] at hfin
        rw [← hfin.2]
        obtain ⟨he1, he2, _, _⟩ := unlockAddrC_bf _ _ _ hs3
        obtain ⟨he3, he4, _, _⟩ := lockAddrC_bf _ _ _ hs1
        exact ⟨he1.trans he3, he2.trans he4⟩
      · rw [Option.map_eq_some'] at h
        obtain ⟨b, hb1, hb2⟩ := h
        rw [Prod.mk.injEq] at hb2
        rw [← hb2.2]
        exact ⟨rfl, rfl⟩

/-- writeByte never changes the boot overlay state. -/
theorem writeByte_bf (s : Jibi.Cpu) (a bv : Nat) (s2 : Jibi.Cpu)
    (h : Jibi.writeByte s a bv = some s2) :
    s2.biosFinished = s.biosFinished ∧ s2.bios = s.bios := by
  unfold Jibi.writeByte at h
  split at h
  · simp only [Option.bind_eq_bind, Option.bind_eq_some] at h
    obtain ⟨s1, hs1, mm, hmm, hfin⟩ := h
    obtain ⟨he1, he2, _, _⟩ := unlockAddrC_bf _ _ _ hfin
    obtain ⟨he3, he4, _, _⟩ := lockAddrC_bf _ _ _ hs1
    exact ⟨he1.trans he3, he2.trans he4⟩
  · split at h
    · simp only [Option.bind_eq_bind, Option.bind_eq_some] at h
      obtain ⟨s1, hs1, mm, hmm, hfin⟩ := h
      obtain ⟨he1, he2, _, _⟩ := unlockAddrC_bf _ _ _ hfin
      obtain ⟨he3, he4, _, _⟩ := lockAddrC_bf _ _ _ hs1
      exact ⟨he1.trans he3, he2.trans he4⟩
    · rw [Option.map_eq_some'] at h
      obtain ⟨mm, hm1, hm2⟩ := h
      rw [← hm2]
      exact ⟨rfl, rfl⟩

/-- writeWord never changes the boot overlay state. -/
theorem writeWord_bf (s : Jibi.Cpu) (a w : Nat) (s2 : Jibi.Cpu)
    (h : Jibi.writeWord s a w = some s2) :
    s2.biosFinished = s.biosFinished ∧ s2.bios = s.bios := by
  unfold Jibi.writeWord at h
  simp only [Option.bind_eq_bind, Option.bind_eq_some] at h
  obtain ⟨s1, hs1, hs2⟩ := h
  obtain ⟨he1, he2⟩ := writeByte_bf _ _ _ _ hs2
  obtain ⟨he3, he4⟩ := writeByte_bf _ _ _ _ hs1
  exact ⟨he1.trans he3, he2.trans he4⟩

/-- push never changes the boot overlay state. -/
theorem push_bf (s : Jibi.Cpu) (w : Nat) (s2 : Jibi.Cpu)
    (h : Jibi.push s w = some s2) :
    s2.biosFinished = s.biosFinished ∧ s2.bios = s.bios := by
  unfold Jibi.push at h
  rw [Option.map_eq_some'] at h
  obtain ⟨s1, hs1, hs2⟩ := h
  obtain ⟨he1, he2⟩ := writeWord_bf _ _ _ _ hs1
  rw [← hs2]
  exact ⟨he1, he2⟩

/-- The io settling phase never changes the boot overlay state. -/
theorem ioPhase_bf (s s2 : Jibi.Cpu) (h : Jibi.ioPhase s = some s2) :
    s2.biosFinished = s.biosFinished ∧ s2.bios = s.bios := by
  unfold Jibi.ioPhase at h
  simp only [Option.bind_eq_bind, Option.bind_eq_some] at h
  obtain ⟨r, hr, h⟩ := h
  split at h
  · obtain ⟨he1, he2⟩ := writeByte_bf _ _ _ _ h
    exact ⟨he1, he2⟩
  · simp only [Option.bind_eq_some] at h
    obtain ⟨rIE, hIE, h⟩ := h
    obtain ⟨he1, he2⟩ := writeByte_bf _ _ _ _ h
    obtain ⟨he3, he4⟩ := readByte_bf _ _ _ _ hIE
    exact ⟨he1.trans he3, he2.trans he4⟩

/-- The interrupt phase never changes the boot overlay state. -/
theorem interrupt_bf (s s2 : Jibi.Cpu) (h : Jibi.interrupt s = some s2) :
    s2.biosFinished = s.biosFinished ∧ s2.bios = s.bios := by
  unfold Jibi.interrupt at h
  split at h
  · simp only [Option.bind_eq_bind, Option.bind_eq_some] at h
    obtain ⟨rIE, hIE, rIF, hIF, h⟩ := h
    have hfrIE := readByte_bf _ _ _ _ hIE
    have hfrIF := readByte_bf _ _ _ _ hIF
    split at h
    · simp only [Option.bind_eq_some] at h
      obtain ⟨s4, hs4, h⟩ := h
      unfold Jibi.resetInterrupt at h
      obtain ⟨he1, he2⟩ := writeByte_bf _ _ _ _ h
      obtain ⟨he3, he4⟩ := push_bf _ _ _ hs4
      refine ⟨?_, ?_⟩
      · exact (he1.trans he3).trans (hfrIF.1.trans hfrIE.1)
      · exact (he2.trans he4).trans (hfrIF.2.trans hfrIE.2)
    · rw [Option.pure_def, Option.some.injEq] at h
      rw [← h]
      exact ⟨hfrIF.1.trans hfrIE.1, hfrIF.2.trans hfrIE.2⟩
  · rw [Option.pure_def, Option.some.injEq] at h
    rw [← h]
    exact ⟨rfl, rfl⟩

/-- fetchParams never changes the boot overlay state. -/
theorem fetchParams_bf (k : Nat) (s : Jibi.Cpu) (acc ps : List Nat)
    (s2 : Jibi.Cpu) (h : Jibi.fetchParams k s acc = some (ps, s2)) :
    s2.biosFinished = s.biosFinished ∧ s2.bios = s.bios := by
  induction k generalizing s acc with
  | zero =>
    unfold Jibi.fetchParams at h
    rw [Option.some.injEq, Prod.mk.injEq] at h
    rw [← h.2]
    exact ⟨rfl, rfl⟩
  | succ k ih =>
    unfold Jibi.fetchParams at h
    simp only [Option.bind_eq_bind, Option.bind_eq_some] at h
    obtain ⟨r, hr, h⟩ := h
    obtain ⟨he1, he2⟩ := ih _ _ h
    obtain ⟨he3, he4⟩ := readByte_bf _ _ _ _ hr
    exact ⟨he1.trans he3, he2.trans he4⟩

/-- fetchOpcode never changes the boot overlay state. -/
theorem fetchOpcode_bf (s : Jibi.Cpu) (op : Nat) (s2 : Jibi.Cpu)
    (h : Jibi.fetchOpcode s = some (op, s2)) :
    s2.biosFinished = s.biosFinished ∧ s2.bios = s.bios := by
  unfold Jibi.fetchOpcode at h
  simp only [Option.bind_eq_bind, Option.bind_eq_some] at h
  obtain ⟨r0, hr0, h⟩ := h
  have hfr0 := readByte_bf _ _ _ _ hr0
  split at h
  · simp only [Option.bind_eq_some] at h
    obtain ⟨r1, hr1, hfin⟩ := h
    obtain ⟨hf1, hf2⟩ := readByte_bf _ _ _ _ hr1
    simp only [Option.pure_def, Option.some.injEq, Prod.mk.injEq] at hfin
    rw [← hfin.2]
    exact ⟨hf1.trans hfr0.1, hf2.trans hfr0.2⟩
  · simp only [Option.pure_def, Option.some.injEq, Prod.mk.injEq] at h
    rw [← h.2]
    exact ⟨hfr0.1, hfr0.2⟩

/-- fetch never changes the boot overlay state. -/
theorem fetch_bf (tbl : Jibi.Table) (s s2 : Jibi.Cpu)
    (h : Jibi.fetch tbl s = some s2) :
    s2.biosFinished = s.biosFinished ∧ s2.bios = s.bios := by
  unfold Jibi.fetch at h
  simp only [Option.bind_eq_bind, Option.bind_eq_some] at h
  obtain ⟨opS, hopS, ps, hps, hfin⟩ := h
  have hfr0 := fetchOpcode_bf _ _ _ hopS
  rw [Option.pure_def, Option.some.injEq] at hfin
  obtain ⟨he1, he2⟩ := fetchParams_bf _ _ _ _ _ hps
  rw [← hfin]
  constructor
  · exact he1.trans hfr0.1
  · exact he2.trans hfr0.2

/-- When every executor in the table preserves the boot overlay state, so
does the execute phase. -/
theorem execute_bf (tbl : Jibi.Table)
    (hpres : ∀ op e fn c c2, tbl op = some e → e.f = some fn →
      fn c = some c2 → c2.biosFinished = c.biosFinished ∧ c2.bios = c.bios)
    (s s2 : Jibi.Cpu) (h : Jibi.execute tbl s = some s2) :
    s2.biosFinished = s.biosFinished ∧ s2.bios = s.bios := by
  unfold Jibi.execute at h
  cases heq : tbl s.inst.o with
  | none =>
    rw [heq] at h
    simp only [Option.some.injEq] at h
    rw [← h]
    exact ⟨rfl, rfl⟩
  | some cmd =>
    rw [heq] at h
    simp only [] at h
    cases hf : cmd.f with
    | none =>
      rw [hf] at h
      exact absurd h (by simp)
    | some fn =>
      rw [hf] at h
      simp only [Option.map_eq_some'] at h
      obtain ⟨s1, hs1, hs2⟩ := h
      obtain ⟨he1, he2⟩ := hpres _ _ _ _ _ heq hf hs1
      rw [← hs2]
      exact ⟨he1, he2⟩

/-- One step finishes the boot overlay exactly when it was already finished
or PC stands at 0x100 at the start of the step, and never reloads it. -/
theorem step_bf (tbl : Jibi.Table)
    (hpres : ∀ op e fn c c2, tbl op = some e → e.f = some fn →
      fn c = some c2 → c2.biosFinished = c.biosFinished ∧ c2.bios = c.bios)
    (s s2 : Jibi.Cpu) (h : Jibi.step tbl s = some s2) :
    s2.biosFinished = (s.biosFinished || decide (s.pc = 0x100)) ∧
      s2.bios = s.bios := by
  unfold Jibi.step at h
  simp only [Option.bind_eq_bind, Option.bind_eq_some] at h
  obtain ⟨sio, hio, sint, hint, sfetch, hfetch, sexec0, hlock, sexec, hexec,
    hfin⟩ := h
  obtain ⟨he1, he2, _, _⟩ := unlockAddrC_bf _ _ _ hfin
  obtain ⟨he3, he4⟩ := execute_bf tbl hpres _ _ hexec
  obtain ⟨he5, he6, _, _⟩ := lockAddrC_bf _ _ _ hlock
  obtain ⟨he7, he8⟩ := fetch_bf tbl _ _ hfetch
  obtain ⟨he9, he10⟩ := interrupt_bf _ _ hint
  obtain ⟨he11, he12⟩ := ioPhase_bf _ _ hio
  have hbf : s2.biosFinished =
      (if s.biosFinished = false ∧ s.pc = 0x100 then true
       else s.biosFinished) := by
    rw [he1, he3, he5, he7, he9, he11]
    split <;> rfl
  have hbios : s2.bios = s.bios := by
    rw [he2, he4, he6, he8, he10, he12]
    split <;> rfl
  refine ⟨?_, hbios⟩
  rw [hbf]
  by_cases hc1 : s.biosFinished = false
  · by_cases hc2 : s.pc = 0x100
    · rw [if_pos ⟨hc1, hc2⟩, hc1, hc2]
      simp
    · rw [if_neg (by tauto), hc1]
      simp [hc2]
  · have hc1t : s.biosFinished = true := by
      cases hv : s.biosFinished
      · exact absurd hv hc1
      · rfl
    rw [if_neg (by tauto), hc1t]
    simp

/-- Claim C6: while the boot rom is mapped, CPU reads at 0x0000-0x00FF
return the boot rom byte; once the overlay is unmapped, reads there return
the cartridge rom byte; a step unmaps the overlay exactly when it was
already unmapped or PC is 0x0100 at the start of the step; and over any run
the overlay, once unmapped, is never remapped. -/
theorem claim6_boot_overlay (tbl : Jibi.Table)
    (hpres : ∀ op e fn c c2, tbl op = some e → e.f = some fn →
      fn c = some c2 → c2.biosFinished = c.biosFinished ∧ c2.bios = c.bios) :
    (∀ (c : Jibi.Cpu) (a : Nat), a ≤ 0xFF → c.biosFinished = false →
      Jibi.readByte c a = (c.bios.get? a).map (fun v => (v, c))) ∧
    (∀ (c : Jibi.Cpu) (a : Nat), a ≤ 0xFF → c.biosFinished = true →
      c.mmuKeys &&& Jibi.abRom = Jibi.abRom →
      Jibi.readByte c a = (c.mmu.rom.get? a).map (fun v => (v, c))) ∧
    (∀ (c c2 : Jibi.Cpu), Jibi.step tbl c = some c2 →
      c2.biosFinished = (c.biosFinished || decide (c.pc = 0x100))) ∧
    (∀ (n : Nat) (c cn : Jibi.Cpu), Jibi.stepN tbl n c = some cn →
      c.biosFinished = true → cn.biosFinished = true) := by
  refine ⟨?_, ?_, ?_, ?_⟩
  · intro c a ha hbf
    unfold Jibi.readByte
    rw [if_pos ⟨hbf, ha⟩]
  · intro c a ha hbf hkey
    have hsel : Jibi.selectAddressBlock a = some (Jibi.abRom, 0) := by
      unfold Jibi.selectAddressBlock
      rw [if_pos (show a < Jibi.AddrVRam by unfold Jibi.AddrVRam; omega)]
    unfold Jibi.readByte
    rw [if_neg (by simp [hbf]),
        if_neg (show ¬ (Jibi.AddrVRam ≤ a ∧ a ≤ Jibi.AddrRam) by
          unfold Jibi.AddrVRam Jibi.AddrRam; omega),
        if_neg (show ¬ (Jibi.AddrOam ≤ a ∧ a ≤ Jibi.AddrOamEnd) by
          unfold Jibi.AddrOam Jibi.AddrOamEnd; omega)]
    unfold Jibi.ReadByteAt
    rw [hsel]
    simp [hkey]
  · exact fun c c2 h => (step_bf tbl hpres c c2 h).1
  · intro n
    induction n with
    | zero =>
      intro c cn h hbf
      unfold Jibi.stepN at h
      rw [Option.some.injEq] at h
      rw [← h]
      exact hbf
    | succ n ih =>
      intro c cn h hbf
      unfold Jibi.stepN at h
      simp only [Option.bind_eq_some] at h
      obtain ⟨ck, hck, hstep⟩ := h
      have hk := ih c ck hck hbf
      have hs := (step_bf tbl hpres ck cn hstep).1
      rw [hs, hk]
      simp

/-- Witness for C6: on a cpu with a mapped boot rom, a read at 0x10 returns
the boot rom byte; with the overlay finished, the same read returns the
cartridge rom byte. -/
theorem claim6_boot_overlay_w :
    Jibi.readByte cpuBoot 0x10 =
      ((cpuBoot.bios.get? 0x10).map fun v => (v, cpuBoot)) ∧
    Jibi.readByte { cpuBoot with biosFinished := true } 0x10 =
      ((({ cpuBoot with biosFinished := true } : Jibi.Cpu).mmu.rom.get?
          0x10).map fun v => (v, { cpuBoot with biosFinished := true })) := by
  have h := claim6_boot_overlay tblNilEntry (by
    intro op e fn c c2 h1 h2 h3
    unfold tblNilEntry at h1
    split at h1
    · rw [Option.some.injEq] at h1
      subst h1
      simp at h2
    · exact absurd h1 (by simp))
  exact ⟨h.1 cpuBoot 0x10 (by decide) (by decide),
         h.2.1 { cpuBoot with biosFinished := true } 0x10 (by decide) rfl
           (by decide)⟩

/-- Claim C5: executing an opcode whose table entry is unused is a fatal
error, not a silent no-op: per the spec the 512-entry table marks unused
entries nil, and calling a nil executor is a fatal Go panic, in both the
jibi and the standalone execute phases. -/
theorem claim5_unknown_opcode :
    (∀ (tbl : Jibi.Table) (s : Jibi.Cpu) (e : Jibi.CmdEntry),
      tbl s.inst.o = some e → e.f = none → Jibi.execute tbl s = none) ∧
    (∀ (tbl : Standalone.Table0) (s : Standalone.Cpu0)
        (e : Standalone.CmdEntry0),
      tbl s.inst.o = some e → e.f = none → Standalone.execute tbl s = none)
    := by
  constructor
  · intro tbl s e he hf
    simp [Jibi.execute, he, hf]
  · intro tbl s e he hf
    by_cases hpc : s.pc = 0x100 <;> simp [Standalone.execute, hpc, he, hf]

/-- Witness for C5: executing opcode 0 against a table whose entry 0 is an
unused (nil) entry aborts. -/
theorem claim5_unknown_opcode_w : Jibi.execute tblNilEntry cpuFresh = none :=
  claim5_unknown_opcode.1 tblNilEntry cpuFresh
    { b := 0, t := 0, f := none } rfl rfl
